import Mathlib

/-
Verification of the pool membership and lifecycle engine of the Pooler
application (src/pool.py and src/poolpreset.py).

Shallow embedding notes:
* The store is the SQLite fallback backend shared by both application
  variants: three collections (pools, members, messages) modelled as lists
  of rows in insertion order, matching the schema created by init_db.
* Timestamps (when_iso, created_at) are modelled as integers (seconds).
  The Python code stores ISO-8601 strings and compares parsed datetimes;
  parsing always succeeds here, and datetime comparison is the integer
  order.  timedelta(minutes=COOLDOWN_MINUTES) becomes COOLDOWN_MINUTES*60.
* Coordinates (lat, lng) are carried as integers; no claim in scope
  depends on floating-point geometry.
* SQL semantics used below: SELECT ... fetchone is List.find? (first row
  in insertion order), COUNT(*) WHERE is List.countP, DELETE WHERE is
  List.filter with the negated condition, plain INSERT appends a row and
  INSERT OR IGNORE appends only when no row with the conflicting
  (pool_id, email) key exists.
-/

structure Pool where
  id : String
  destination_id : String
  destination_name : String
  lat : Int
  lng : Int
  when_iso : Int
  seats : Int
  mode : String
  notes : String
  host_name : String
  host_email : String
  created_at : Int
  pickup : String
deriving DecidableEq, Repr

structure Member where
  pool_id : String
  name : String
  email : String
deriving DecidableEq, Repr

structure Message where
  id : String
  pool_id : String
  sender_email : String
  sender_name : String
  content : String
  created_at : Int
deriving DecidableEq, Repr

/-- The persisted store: the three tables created by init_db. -/
structure DB where
  pools : List Pool
  members : List Member
  messages : List Message
deriving DecidableEq, Repr

def emptyDB : DB := { pools := [], members := [], messages := [] }

structure Identity where
  name : String
  email : String
deriving DecidableEq, Repr

/-- A resolved destination as produced by the location search
(id/name/coordinates/address); `pid` is the place id, empty when absent. -/
structure Dest where
  pid : String
  name : String
  lat : Int
  lng : Int
  addr : String
deriving DecidableEq, Repr

def COOLDOWN_MINUTES : Int := 15

def SEATS_MIN : Int := 1

def SEATS_MAX : Int := 10

-- Core DB functions -------------------------------------------------------

/-- get_members_count: SELECT COUNT(*) FROM members WHERE pool_id = ?. -/
def get_members_count (pool_id : String) (db : DB) : Nat :=
  db.members.countP (fun m => m.pool_id = pool_id)

/-- is_user_member: SELECT 1 FROM members WHERE pool_id = ? AND email = ?,
fetchone is not None.  (Inlined in pool.py's join_pool; a named helper in
poolpreset.py.) -/
def is_user_member (pool_id : String) (email : String) (db : DB) : Bool :=
  db.members.any (fun m => m.pool_id = pool_id ∧ m.email = email)

/-- can_host_create, inner query outcome: the SELECT of created_at rows for
the host may raise (Except.error) in which case the guard returns true
(fails open); otherwise it returns false iff some created_at is within the
trailing cooldown window (created_at >= now - 15 minutes). -/
def can_host_create_q (now : Int) (res : Except Unit (List Int)) : Bool :=
  let since := now - COOLDOWN_MINUTES * 60
  match res with
  | Except.error _ => true
  | Except.ok rows => !(rows.any (fun created_at => since ≤ created_at))

/-- SELECT created_at FROM pools WHERE host_email = ?. -/
def host_created_rows (email : String) (db : DB) : List Int :=
  (db.pools.filter (fun p => p.host_email = email)).map (fun p => p.created_at)

/-- can_host_create: spam guard, one pool per host per 15 minutes. -/
def can_host_create (email : String) (now : Int) (db : DB) : Bool :=
  can_host_create_q now (Except.ok (host_created_rows email db))

/-- INSERT OR IGNORE INTO members VALUES (?,?,?): appends unless a row with
the same (pool_id, email) unique key already exists. -/
def insert_or_ignore_member (m : Member) (members : List Member) : List Member :=
  if members.any (fun x => x.pool_id = m.pool_id ∧ x.email = m.email) then members
  else members ++ [m]

/-- add_pool: INSERT the pool row, then INSERT OR IGNORE the host as the
first member. -/
def add_pool (pool : Pool) (db : DB) : DB :=
  { db with
    pools := db.pools ++ [pool],
    members := insert_or_ignore_member
      { pool_id := pool.id, name := pool.host_name, email := pool.host_email }
      db.members }

inductive JoinResult where
  | alreadyJoined
  | poolNotFound
  | ridePassed
  | poolFull
  | joined
deriving DecidableEq, Repr

/-- join_pool (SQLite branch): already-member check, pool lookup, ride-time
check, capacity check, then INSERT INTO members. -/
def join_pool (pool_id : String) (name : String) (email : String) (now : Int)
    (db : DB) : DB × JoinResult :=
  if is_user_member pool_id email db then (db, JoinResult.alreadyJoined)
  else
    match db.pools.find? (fun p => p.id = pool_id) with
    | none => (db, JoinResult.poolNotFound)
    | some p =>
      if p.when_iso < now then (db, JoinResult.ridePassed)
      else if p.seats ≤ (get_members_count pool_id db : Int) then
        (db, JoinResult.poolFull)
      else
        ({ db with members := db.members ++ [{ pool_id := pool_id, name := name, email := email }] },
         JoinResult.joined)

/-- leave_pool: DELETE FROM members WHERE pool_id = ? AND email = ?;
unconditional, a no-op for non-members. -/
def leave_pool (pool_id : String) (email : String) (db : DB) : DB :=
  { db with members := db.members.filter (fun m => ¬(m.pool_id = pool_id ∧ m.email = email)) }

/-- delete_pool: look up host_email of the pool (fetchone), return false if
absent or the requester is not the host; otherwise delete the membership
rows, then the pool row, and return true. -/
def delete_pool (pool_id : String) (requester_email : String) (db : DB) : DB × Bool :=
  match db.pools.find? (fun p => p.id = pool_id) with
  | none => (db, false)
  | some p =>
    if p.host_email = requester_email then
      ({ db with
         members := db.members.filter (fun m => ¬ m.pool_id = pool_id),
         pools := db.pools.filter (fun q => ¬ q.id = pool_id) }, true)
    else (db, false)

/-- cleanup_expired_pools: collect the ids of pools with when_iso < now,
then delete their membership rows and the pool rows. -/
def cleanup_expired_pools (now : Int) (db : DB) : DB :=
  let expired := (db.pools.filter (fun p => p.when_iso < now)).map (fun p => p.id)
  { db with
    members := db.members.filter (fun m => ¬ m.pool_id ∈ expired),
    pools := db.pools.filter (fun p => ¬ p.id ∈ expired) }

/-- list_future_pools (SQLite branch): keep pools whose departure has not
passed (when_iso >= now). -/
def list_future_pools (now : Int) (db : DB) : List Pool :=
  db.pools.filter (fun p => now ≤ p.when_iso)

-- Sorting (Python list.sort: stable, ascending by key) --------------------

/-- Stable insertion step: place x after every element with a strictly
smaller key and before the first element whose key is not smaller, which
keeps the original relative order of equal keys. -/
def insertByKey (key : α → Int) (x : α) : List α → List α
  | [] => [x]
  | y :: ys => if key y < key x then y :: insertByKey key x ys else x :: y :: ys

/-- Stable ascending sort by an integer key, as Python's list.sort. -/
def sortByKey (key : α → Int) : List α → List α
  | [] => []
  | x :: xs => insertByKey key x (sortByKey key xs)

-- Chat: list_messages ------------------------------------------------------

/-- list_messages: SELECT ... WHERE pool_id = ? ORDER BY created_at ASC
LIMIT ? (the source default for the limit argument is 200). -/
def list_messages (pool_id : String) (limit : Nat) (db : DB) : List Message :=
  ((sortByKey (fun m => m.created_at) (db.messages.filter (fun m => m.pool_id = pool_id))).take limit)

-- Discovery ordering (pools_list_ui) ---------------------------------------

/-- The ordering pipeline of pools_list_ui, applied to the listed pools:
(1) if a deep-link focus id is present and found, move that pool to the
front; (2) optionally apply the plus/minus 15 minute time-window filter;
(3) sort chronologically by when_iso (Python stable ascending sort).  The
distance branch replaces step (3) with a sort by haversine distance and is
float-valued; the chronological branch is modelled here. -/
def pools_list_order (pools : List Pool) (focus_id : Option String)
    (target_dt : Option Int) : List Pool :=
  let pools :=
    match focus_id with
    | none => pools
    | some fid =>
      match pools.find? (fun p => p.id = fid) with
      | none => pools
      | some fp => fp :: pools.filter (fun p => ¬ p.id = fp.id)
  let pools :=
    match target_dt with
    | none => pools
    | some t => pools.filter (fun p => (p.when_iso - t).natAbs ≤ 900)
  sortByKey (fun p => p.when_iso) pools

/-- The full read path of pools_list_ui: reap expired pools, list the
remaining future pools, then order them for display. -/
def pools_list_ui_order (now : Int) (focus_id : Option String)
    (target_dt : Option Int) (db : DB) : List Pool :=
  pools_list_order (list_future_pools now (cleanup_expired_pools now db)) focus_id target_dt

-- Creation (create_pool_ui) ------------------------------------------------

inductive CreateError where
  | destinationRequired
  | timeInPast
  | pickupRequiredForAirport
  | cooldownActive
deriving DecidableEq, Repr

/-- ASCII lowercasing of one character, as Python's str.lower restricted to
the ASCII range the destination strings use.  (Implemented over characters
directly so that the kernel can evaluate it; the core String.toLower is
defined by well-founded recursion and does not reduce.) -/
def ascii_lower (c : Char) : Char :=
  if c.isUpper then Char.ofNat (c.toNat + 32) else c

/-- Does sub occur as a contiguous run inside l, as Python's
s.find(sub) != -1. -/
def containsSub (sub : List Char) : List Char → Bool
  | [] => sub.isPrefixOf []
  | c :: t => if sub.isPrefixOf (c :: t) then true else containsSub sub t

/-- Python whitespace characters stripped by str.strip(). -/
def is_space_char (c : Char) : Bool :=
  c = ' ' || c = '\t' || c = '\n' || c = '\r'

/-- Python s.strip(): drop whitespace from both ends. -/
def pystrip (s : String) : String :=
  { data := ((s.data.dropWhile is_space_char).reverse.dropWhile is_space_char).reverse }

/-- Case-insensitive substring test for "airport", as
s.lower().find("airport") != -1. -/
def mentions_airport (s : String) : Bool :=
  containsSub "airport".data (s.data.map ascii_lower)

/-- create_pool_ui validation chain (pool.py): destination selected,
departure not in the past (when_dt < now rejects), airport destinations
need a pickup point, spam guard; on success build the pool record and call
add_pool.  Returns the store together with the validation error, if any;
on error nothing is written. -/
def create_pool_ui (user : Identity) (dest : Option Dest) (when_dt : Int)
    (pickup : String) (notes : String) (mode : String) (seats : Int)
    (now : Int) (db : DB) : DB × Option CreateError :=
  match dest with
  | none => (db, some CreateError.destinationRequired)
  | some d =>
    if when_dt < now then (db, some CreateError.timeInPast)
    else if (mentions_airport d.name || mentions_airport d.addr) && pystrip pickup = "" then
      (db, some CreateError.pickupRequiredForAirport)
    else if !(can_host_create user.email now db) then
      (db, some CreateError.cooldownActive)
    else
      (add_pool
        { id := "pool_" ++ toString now
          destination_id := if d.pid = "" then d.name else d.pid
          destination_name := d.name
          lat := d.lat
          lng := d.lng
          when_iso := when_dt
          seats := seats
          mode := mode
          notes := pystrip notes
          host_name := user.name
          host_email := user.email
          created_at := now
          pickup := pystrip pickup } db, none)

-- Lifecycle actions and the store invariant --------------------------------

/-- One engine operation on the store. -/
inductive PoolAction where
  | create (p : Pool)
  | join (pool_id name email : String) (now : Int)
  | leave (pool_id email : String)
  | delete (pool_id requester : String)
  | reap (now : Int)
deriving DecidableEq, Repr

def PoolAction.apply : PoolAction → DB → DB
  | PoolAction.create p, db => add_pool p db
  | PoolAction.join pid n e now, db => (join_pool pid n e now db).1
  | PoolAction.leave pid e, db => leave_pool pid e db
  | PoolAction.delete pid r, db => (delete_pool pid r db).1
  | PoolAction.reap now, db => cleanup_expired_pools now db

/-- Side conditions the application upholds when invoking an operation:
pool creation uses a fresh id (SQLite primary key on pools.id) with no
stale membership rows for it, and the seat count comes from a UI widget
clamped to at least SEATS_MIN. -/
def PoolAction.ok : PoolAction → DB → Prop
  | PoolAction.create p, db =>
      1 ≤ p.seats ∧ (∀ q ∈ db.pools, ¬ q.id = p.id) ∧ (∀ m ∈ db.members, ¬ m.pool_id = p.id)
  | _, _ => True

/-- Store invariant: pool ids are unique (primary key) and no pool holds
more members than seats. -/
def StoreInv (db : DB) : Prop :=
  (db.pools.map (fun p => p.id)).Nodup ∧
  ∀ p ∈ db.pools, (get_members_count p.id db : Int) ≤ p.seats

instance (db : DB) : Decidable (StoreInv db) := by
  unfold StoreInv
  infer_instance

/-- No two membership rows share the same (pool_id, email) key. -/
def members_unique (l : List Member) : Prop :=
  l.Pairwise (fun a b => ¬(a.pool_id = b.pool_id ∧ a.email = b.email))

-- Concrete fixtures ---------------------------------------------------------

def hostU : Identity := { name := "Host", email := "h@x" }

def pool1 : Pool :=
  { id := "pool_1000", destination_id := "jbs", destination_name := "JBS",
    lat := 0, lng := 0, when_iso := 5000, seats := 3, mode := "Cab",
    notes := "", host_name := "Host", host_email := "h@x",
    created_at := 1000, pickup := "Gate" }

/-- A full, already departed pool: one seat, taken by the host. -/
def poolF : Pool :=
  { id := "f1", destination_id := "jbs", destination_name := "JBS",
    lat := 0, lng := 0, when_iso := 1000, seats := 1, mode := "Cab",
    notes := "", host_name := "Flo", host_email := "f@x",
    created_at := 1, pickup := "" }

def dbFull : DB :=
  { pools := [poolF],
    members := [{ pool_id := "f1", name := "Flo", email := "f@x" }],
    messages := [] }

def destJBS : Dest :=
  { pid := "jbs", name := "JBS", lat := 0, lng := 0, addr := "Secunderabad" }

def poolA : Pool :=
  { id := "a", destination_id := "d1", destination_name := "JBS",
    lat := 0, lng := 0, when_iso := 100, seats := 3, mode := "Cab",
    notes := "", host_name := "Ann", host_email := "a@x",
    created_at := 10, pickup := "" }

def poolB : Pool :=
  { id := "b", destination_id := "d2", destination_name := "Gachibowli",
    lat := 0, lng := 0, when_iso := 200, seats := 3, mode := "Auto",
    notes := "", host_name := "Ben", host_email := "bn@x",
    created_at := 20, pickup := "" }

def dbAB : DB := { pools := [poolA, poolB], members := [], messages := [] }

def poolExp : Pool :=
  { id := "e1", destination_id := "d1", destination_name := "JBS",
    lat := 0, lng := 0, when_iso := 100, seats := 2, mode := "Cab",
    notes := "", host_name := "Eve", host_email := "e@x",
    created_at := 1, pickup := "" }

def poolFut : Pool :=
  { id := "u1", destination_id := "d2", destination_name := "Miyapur",
    lat := 0, lng := 0, when_iso := 9000, seats := 2, mode := "Cab",
    notes := "", host_name := "Uma", host_email := "u@x",
    created_at := 2, pickup := "" }

def memE : Member := { pool_id := "e1", name := "Eve", email := "e@x" }

def memU : Member := { pool_id := "u1", name := "Uma", email := "u@x" }

def dbExp : DB := { pools := [poolExp, poolFut], members := [memE, memU], messages := [] }

def msg1 : Message :=
  { id := "m1", pool_id := "p1", sender_email := "a@x", sender_name := "A",
    content := "one", created_at := 1 }

def msg2 : Message :=
  { id := "m2", pool_id := "p1", sender_email := "b@x", sender_name := "B",
    content := "two", created_at := 2 }

def msg3 : Message :=
  { id := "m3", pool_id := "p1", sender_email := "a@x", sender_name := "A",
    content := "three", created_at := 3 }

def dbMsgs : DB := { pools := [], members := [], messages := [msg1, msg2, msg3] }

-- Claim C10 -----------------------------------------------------------------

/-- Claim C10: the spam guard fails open — whenever the store query inside
can_host_create raises, the guard returns true, so a storage failure
permits pool creation rather than blocking it.  (Both backend branches of
can_host_create wrap their query in a handler that returns True.) -/
theorem can_host_create_fails_open (now : Int) (e : Unit) :
    can_host_create_q now (Except.error e) = true := rfl

-- Claim C8 (code bug) -------------------------------------------------------

/-- Claim C8, evaluated at the failing input: with two future pools a
(when_iso 100) and b (when_iso 200) and deep-link focus on b, the
pools_list_ui pipeline moves b to the front but then sorts chronologically,
so the final list is [poolA, poolB]: the focused pool b is in the result
set yet is not the first element, contrary to the pin-to-front behaviour
the code's own comment announces. -/
theorem deep_link_focus_reordered_by_sort :
    pools_list_ui_order 50 (some "b") none dbAB = [poolA, poolB] ∧
    poolB ∈ pools_list_ui_order 50 (some "b") none dbAB ∧
    (pools_list_ui_order 50 (some "b") none dbAB).head? = some poolA ∧
    ¬ poolA.id = "b" := by decide

-- Claim C1 counterexample ---------------------------------------------------

/-- Claim C1 counterexample: after creating pool1 (host auto-joined,
count 1), the host calls leave_pool; the pool is still live in the store
but its member count is 0, refuting the lower bound 1 <= member_count. -/
theorem host_leave_zero_members_counterexample :
    pool1 ∈ (leave_pool "pool_1000" "h@x" (add_pool pool1 emptyDB)).pools ∧
    get_members_count "pool_1000" (leave_pool "pool_1000" "h@x" (add_pool pool1 emptyDB)) = 0 ∧
    ¬ 1 ≤ get_members_count "pool_1000" (leave_pool "pool_1000" "h@x" (add_pool pool1 emptyDB)) := by
  decide

-- Claim C2 counterexample ---------------------------------------------------

/-- Claim C2 counterexample: dbFull holds a pool at capacity (1/1 seats)
whose departure (1000) has passed at now = 2000; join_pool by a non-member
returns ridePassed, not poolFull, because the ride-time check precedes the
capacity check. -/
theorem join_full_expired_counterexample :
    (get_members_count "f1" dbFull : Int) = poolF.seats ∧
    is_user_member "f1" "b@x" dbFull = false ∧
    join_pool "f1" "Bob" "b@x" 2000 dbFull = (dbFull, JoinResult.ridePassed) ∧
    ¬ JoinResult.ridePassed = JoinResult.poolFull := by decide

-- Claim C7 counterexample ---------------------------------------------------

/-- Claim C7 counterexample: a creation request whose departure_time equals
the evaluation instant (both 1000) is accepted — no timeInPast error and a
pool row is written — because the code only rejects when_dt < now. -/
theorem create_at_now_accepted_counterexample :
    (create_pool_ui hostU (some destJBS) 1000 "Gate" "" "Cab" 3 1000 emptyDB).2 = none ∧
    (create_pool_ui hostU (some destJBS) 1000 "Gate" "" "Cab" 3 1000 emptyDB).1.pools.length = 1 ∧
    ¬ (create_pool_ui hostU (some destJBS) 1000 "Gate" "" "Cab" 3 1000 emptyDB).2
        = some CreateError.timeInPast := by decide

-- Claim C9 counterexample ---------------------------------------------------

/-- Claim C9 counterexample: dbMsgs holds three messages (timestamps
1, 2, 3) in pool p1; list_messages with limit 2 returns the two oldest
[msg1, msg2] and omits the most recent msg3, because the query is ORDER BY
created_at ASC LIMIT 2 — it does not select the most recent messages. -/
theorem list_messages_oldest_counterexample :
    list_messages "p1" 2 dbMsgs = [msg1, msg2] ∧
    ¬ msg3 ∈ list_messages "p1" 2 dbMsgs ∧
    msg2.created_at < msg3.created_at := by decide

-- Claim C4 ------------------------------------------------------------------

/-- Claim C4: delete_pool returns true and removes all of the pool's
membership rows and the pool row exactly when the requester email equals
the pool's host email; otherwise (wrong requester or missing pool) it
returns false and leaves the store unchanged. -/
theorem delete_pool_host_gate (db : DB) (pid req : String) :
    ((delete_pool pid req db).2 = true ↔
      ∃ p, db.pools.find? (fun q => q.id = pid) = some p ∧ p.host_email = req) ∧
    ((delete_pool pid req db).2 = true →
      (delete_pool pid req db).1 =
        { db with
          members := db.members.filter (fun m => ¬ m.pool_id = pid),
          pools := db.pools.filter (fun q => ¬ q.id = pid) }) ∧
    ((delete_pool pid req db).2 = false → (delete_pool pid req db).1 = db) := by
  unfold delete_pool
  cases hf : db.pools.find? (fun p => p.id = pid) with
  | none => simp [hf]
  | some p =>
    by_cases hh : p.host_email = req
    · simp [hf, hh]
    · simp [hf, hh]

/-- Witness for delete_pool_host_gate: the host's delete succeeds on the
concrete store, a stranger's delete leaves it unchanged. -/
theorem delete_pool_host_gate_witness :
    (delete_pool "pool_1000" "h@x" (add_pool pool1 emptyDB)).2 = true ∧
    (delete_pool "pool_1000" "z@x" (add_pool pool1 emptyDB)).1 = add_pool pool1 emptyDB := by
  constructor
  · exact (delete_pool_host_gate (add_pool pool1 emptyDB) "pool_1000" "h@x").1.mpr
      ⟨pool1, by decide, rfl⟩
  · exact (delete_pool_host_gate (add_pool pool1 emptyDB) "pool_1000" "z@x").2.2 (by decide)

-- Claim C3 ------------------------------------------------------------------

instance (l : List Member) : Decidable (members_unique l) := by
  unfold members_unique
  infer_instance

/-- Claim C3: joining is idempotent per (pool_id, email) — if the
membership row already exists, join_pool returns alreadyJoined and leaves
the store untouched; and every join_pool call preserves uniqueness of
membership rows per (pool_id, email), so no second row is ever created. -/
theorem join_idempotent_unique :
    (∀ (db : DB) (pid name email : String) (now : Int),
      is_user_member pid email db = true →
      join_pool pid name email now db = (db, JoinResult.alreadyJoined)) ∧
    (∀ (db : DB) (pid name email : String) (now : Int),
      members_unique db.members →
      members_unique (join_pool pid name email now db).1.members) := by
  constructor
  · intro db pid name email now h
    unfold join_pool
    simp [h]
  · intro db pid name email now h
    unfold join_pool
    by_cases hm : is_user_member pid email db = true
    · simpa [hm] using h
    · rw [if_neg (by simpa using hm)]
      cases hf : db.pools.find? (fun p => p.id = pid) with
      | none => simpa using h
      | some p =>
        dsimp only
        by_cases ht : p.when_iso < now
        · simpa [ht] using h
        · rw [if_neg ht]
          by_cases hc : p.seats ≤ (get_members_count pid db : Int)
          · simpa [hc] using h
          · rw [if_neg hc]
            unfold members_unique at h ⊢
            rw [List.pairwise_append]
            refine ⟨h, by simp, ?_⟩
            intro a ha b hb
            simp only [List.mem_singleton] at hb
            subst hb
            unfold is_user_member at hm
            simp only [List.any_eq_true, decide_eq_true_eq, not_exists, not_and] at hm
            intro hand
            exact hm a ha hand.1 hand.2

/-- Witness for join_idempotent_unique: on the concrete store the host's
second join returns alreadyJoined and changes nothing, and a fresh join
keeps membership rows unique. -/
theorem join_idempotent_unique_witness :
    join_pool "pool_1000" "Host" "h@x" 100 (add_pool pool1 emptyDB)
      = (add_pool pool1 emptyDB, JoinResult.alreadyJoined) ∧
    members_unique (join_pool "pool_1000" "Bob" "b@x" 100 (add_pool pool1 emptyDB)).1.members := by
  constructor
  · exact join_idempotent_unique.1 (add_pool pool1 emptyDB) "pool_1000" "Host" "h@x" 100 (by decide)
  · exact join_idempotent_unique.2 (add_pool pool1 emptyDB) "pool_1000" "Bob" "b@x" 100 (by decide)

-- Claim C2 (amended) --------------------------------------------------------

/-- Claim C2 as amended: join_pool on a pool at capacity by a non-member
never returns joined and never mutates the store; it returns poolFull when
the departure time has not passed, and ridePassed when it has (the
ride-time check precedes the capacity check). -/
theorem join_full_never_joins (db : DB) (pid name email : String) (now : Int) (p : Pool)
    (hfind : db.pools.find? (fun q => q.id = pid) = some p)
    (hfull : (get_members_count pid db : Int) = p.seats)
    (hmem : is_user_member pid email db = false) :
    (join_pool pid name email now db).1 = db ∧
    ¬ (join_pool pid name email now db).2 = JoinResult.joined ∧
    (p.when_iso < now → (join_pool pid name email now db).2 = JoinResult.ridePassed) ∧
    (¬ p.when_iso < now → (join_pool pid name email now db).2 = JoinResult.poolFull) := by
  unfold join_pool
  rw [if_neg (by simp [hmem]), hfind]
  have hcap : p.seats ≤ (get_members_count pid db : Int) := le_of_eq hfull.symm
  by_cases ht : p.when_iso < now
  · simp [ht]
  · simp [ht, hcap]

/-- Witness for join_full_never_joins: joining the full (1/1) live pool in
dbFull at now = 500 leaves the store unchanged and reports poolFull. -/
theorem join_full_never_joins_witness :
    (join_pool "f1" "Bob" "b@x" 500 dbFull).1 = dbFull ∧
    (join_pool "f1" "Bob" "b@x" 500 dbFull).2 = JoinResult.poolFull := by
  have h := join_full_never_joins dbFull "f1" "Bob" "b@x" 500 poolF
    (by decide) (by decide) (by decide)
  exact ⟨h.1, h.2.2.2 (by decide)⟩

-- Claim C5 ------------------------------------------------------------------

theorem cleanup_pools_eq (now : Int) (db : DB) :
    (cleanup_expired_pools now db).pools
      = db.pools.filter
          (fun p => ¬ p.id ∈ (db.pools.filter (fun q => q.when_iso < now)).map (fun q => q.id)) := rfl

theorem cleanup_members_eq (now : Int) (db : DB) :
    (cleanup_expired_pools now db).members
      = db.members.filter
          (fun m => ¬ m.pool_id ∈ (db.pools.filter (fun q => q.when_iso < now)).map (fun q => q.id)) := rfl

theorem cleanup_messages_eq (now : Int) (db : DB) :
    (cleanup_expired_pools now db).messages = db.messages := rfl

theorem db_fields_ext (d1 d2 : DB) (h1 : d1.pools = d2.pools)
    (h2 : d1.members = d2.members) (h3 : d1.messages = d2.messages) : d1 = d2 := by
  cases d1
  cases d2
  simp_all

/-- Claim C5: cleanup_expired_pools removes a pool together with all of its
membership rows iff its departure time is strictly before now; future pools
and their memberships are untouched; running it again immediately is a
no-op, and on the empty store it is a no-op. -/
theorem cleanup_expired_spec (db : DB) (now : Int)
    (hids : (db.pools.map (fun p => p.id)).Nodup) :
    (∀ p ∈ db.pools, p.when_iso < now →
        ¬ p ∈ (cleanup_expired_pools now db).pools ∧
        ∀ m ∈ db.members, m.pool_id = p.id → ¬ m ∈ (cleanup_expired_pools now db).members) ∧
    (∀ p ∈ db.pools, ¬ p.when_iso < now →
        p ∈ (cleanup_expired_pools now db).pools ∧
        ∀ m ∈ db.members, m.pool_id = p.id → m ∈ (cleanup_expired_pools now db).members) ∧
    cleanup_expired_pools now (cleanup_expired_pools now db) = cleanup_expired_pools now db ∧
    cleanup_expired_pools now emptyDB = emptyDB := by
  have hmemE : ∀ p ∈ db.pools, p.when_iso < now →
      p.id ∈ (db.pools.filter (fun q => q.when_iso < now)).map (fun q => q.id) := by
    intro p hp hlt
    exact List.mem_map_of_mem _ (List.mem_filter.mpr ⟨hp, by simpa using hlt⟩)
  have hnotE : ∀ p ∈ db.pools, ¬ p.when_iso < now →
      ¬ p.id ∈ (db.pools.filter (fun q => q.when_iso < now)).map (fun q => q.id) := by
    intro p hp hge hmem
    rcases List.mem_map.mp hmem with ⟨q, hq, hqid⟩
    rcases List.mem_filter.mp hq with ⟨hq1, hq2⟩
    have hqp : q = p := List.inj_on_of_nodup_map hids hq1 hp hqid
    subst hqp
    exact hge (by simpa using hq2)
  refine ⟨?_, ?_, ?_, ?_⟩
  · intro p hp hlt
    refine ⟨?_, ?_⟩
    · rw [cleanup_pools_eq]
      intro hmem
      have h2 := (List.mem_filter.mp hmem).2
      simp only [decide_eq_true_eq] at h2
      exact h2 (hmemE p hp hlt)
    · intro m hm hmid
      rw [cleanup_members_eq]
      intro hmem
      have h2 := (List.mem_filter.mp hmem).2
      simp only [decide_eq_true_eq] at h2
      exact h2 (hmid ▸ hmemE p hp hlt)
  · intro p hp hge
    refine ⟨?_, ?_⟩
    · rw [cleanup_pools_eq]
      exact List.mem_filter.mpr ⟨hp, by simpa using hnotE p hp hge⟩
    · intro m hm hmid
      rw [cleanup_members_eq]
      refine List.mem_filter.mpr ⟨hm, ?_⟩
      simp only [decide_eq_true_eq]
      rw [hmid]
      exact hnotE p hp hge
  · have hnoexp : ∀ p ∈ (cleanup_expired_pools now db).pools, ¬ p.when_iso < now := by
      intro p hp
      rw [cleanup_pools_eq] at hp
      rcases List.mem_filter.mp hp with ⟨hp1, hp2⟩
      simp only [decide_eq_true_eq] at hp2
      intro hlt
      exact hp2 (hmemE p hp1 hlt)
    have hfilnil : (cleanup_expired_pools now db).pools.filter (fun q => q.when_iso < now) = [] := by
      rw [List.filter_eq_nil_iff]
      intro p hp
      simpa using hnoexp p hp
    apply db_fields_ext
    · rw [cleanup_pools_eq, hfilnil]
      simp
    · rw [cleanup_members_eq, hfilnil]
      simp
    · rw [cleanup_messages_eq]
  · rfl

/-- Witness for cleanup_expired_spec: on the concrete store dbExp at
now = 1000 the expired pool e1 and its membership row are removed while
the future pool u1 and its membership row remain. -/
theorem cleanup_expired_spec_witness :
    ¬ poolExp ∈ (cleanup_expired_pools 1000 dbExp).pools ∧
    poolFut ∈ (cleanup_expired_pools 1000 dbExp).pools ∧
    ¬ memE ∈ (cleanup_expired_pools 1000 dbExp).members ∧
    memU ∈ (cleanup_expired_pools 1000 dbExp).members := by
  have h := cleanup_expired_spec dbExp 1000 (by decide)
  exact ⟨(h.1 poolExp (by decide) (by decide)).1,
         (h.2.1 poolFut (by decide) (by decide)).1,
         (h.1 poolExp (by decide) (by decide)).2 memE (by decide) (by decide),
         (h.2.1 poolFut (by decide) (by decide)).2 memU (by decide) (by decide)⟩

-- Claim C6 ------------------------------------------------------------------

/-- Claim C6: can_host_create(email) is false exactly when some pool by
that host in the store has created_at inside the trailing 15-minute window
ending at the evaluation instant (given the clock fact that no stored
created_at lies in the future); it is false immediately after a creation by
that email, and true again at any instant past every such creation's
created_at plus 15 minutes. -/
theorem can_host_create_window (db : DB) (email : String) (now : Int)
    (hclock : ∀ p ∈ db.pools, p.created_at ≤ now) :
    (can_host_create email now db = false ↔
      ∃ p ∈ db.pools, p.host_email = email ∧
        now - COOLDOWN_MINUTES * 60 ≤ p.created_at ∧ p.created_at ≤ now) ∧
    (∀ p : Pool, p.host_email = email → p.created_at = now →
      can_host_create email now (add_pool p db) = false) ∧
    (∀ later : Int, (∀ p ∈ db.pools, p.host_email = email →
        p.created_at + COOLDOWN_MINUTES * 60 < later) →
      can_host_create email later db = true) := by
  refine ⟨?_, ?_, ?_⟩
  · unfold can_host_create can_host_create_q host_created_rows
    simp only [Bool.not_eq_false', List.any_eq_true, List.mem_map, List.mem_filter,
      decide_eq_true_eq]
    constructor
    · rintro ⟨t, ⟨p, ⟨hp, hhost⟩, rfl⟩, hsince⟩
      exact ⟨p, hp, hhost, hsince, hclock p hp⟩
    · rintro ⟨p, hp, hhost, hsince, _⟩
      exact ⟨p.created_at, ⟨p, ⟨hp, hhost⟩, rfl⟩, hsince⟩
  · intro p hhost hc
    unfold can_host_create can_host_create_q host_created_rows add_pool
    simp only [Bool.not_eq_false', List.any_eq_true, List.mem_map, List.mem_filter,
      decide_eq_true_eq]
    refine ⟨p.created_at, ⟨p, ⟨by simp, hhost⟩, rfl⟩, ?_⟩
    rw [hc]
    simp only [COOLDOWN_MINUTES]
    omega
  · intro later h
    unfold can_host_create can_host_create_q host_created_rows
    simp only [Bool.not_eq_true', List.any_eq_false, List.mem_map, List.mem_filter,
      decide_eq_true_eq]
    rintro t ⟨p, ⟨hp, hhost⟩, rfl⟩
    have hlt := h p hp hhost
    simp only [COOLDOWN_MINUTES] at hlt ⊢
    omega

/-- Witness for can_host_create_window: after pool1 (created_at 1000) the
guard blocks its host at now = 1500 and allows again at now = 2000. -/
theorem can_host_create_window_witness :
    can_host_create "h@x" 1500 (add_pool pool1 emptyDB) = false ∧
    can_host_create "h@x" 2000 (add_pool pool1 emptyDB) = true := by
  have h := can_host_create_window (add_pool pool1 emptyDB) "h@x" 1500 (by decide)
  exact ⟨h.1.mpr ⟨pool1, by decide, rfl, by decide, by decide⟩,
         h.2.2 2000 (by decide)⟩

-- Claim C7 (amended) --------------------------------------------------------

/-- Claim C7 as amended: pool creation rejects with timeInPast exactly the
requests whose departure_time is strictly before the evaluation instant,
and writes nothing in that case; a departure_time equal to the evaluation
instant passes the time check (so it is not rejected as being in the
past). -/
theorem create_time_in_past_spec (user : Identity) (d : Dest) (when_dt : Int)
    (pickup notes mode : String) (seats : Int) (now : Int) (db : DB) :
    ((create_pool_ui user (some d) when_dt pickup notes mode seats now db).2
        = some CreateError.timeInPast ↔ when_dt < now) ∧
    (when_dt < now →
      (create_pool_ui user (some d) when_dt pickup notes mode seats now db).1 = db) := by
  unfold create_pool_ui
  dsimp only
  by_cases ht : when_dt < now
  · simp [ht]
  · rw [if_neg ht]
    refine ⟨⟨fun hcontra => ?_, fun hlt => absurd hlt ht⟩, fun hlt => absurd hlt ht⟩
    exfalso
    split_ifs at hcontra <;> simp_all

/-- Witness for create_time_in_past_spec: a request with departure 500 at
evaluation instant 1000 is rejected as timeInPast and writes nothing. -/
theorem create_time_in_past_spec_witness :
    (create_pool_ui hostU (some destJBS) 500 "Gate" "" "Cab" 3 1000 emptyDB).2
        = some CreateError.timeInPast ∧
    (create_pool_ui hostU (some destJBS) 500 "Gate" "" "Cab" 3 1000 emptyDB).1 = emptyDB := by
  have h := create_time_in_past_spec hostU destJBS 500 "Gate" "" "Cab" 3 1000 emptyDB
  exact ⟨h.1.mpr (by decide), h.2 (by decide)⟩

-- Claim C9 (amended) --------------------------------------------------------

theorem mem_insertByKey (key : α → Int) (x a : α) (l : List α) :
    a ∈ insertByKey key x l ↔ a = x ∨ a ∈ l := by
  induction l with
  | nil => simp [insertByKey]
  | cons y ys ih =>
    unfold insertByKey
    by_cases h : key y < key x
    · rw [if_pos h]
      simp only [List.mem_cons, ih]
      tauto
    · rw [if_neg h]
      simp only [List.mem_cons]

theorem pairwise_insertByKey (key : α → Int) (x : α) (l : List α)
    (h : l.Pairwise (fun a b => key a ≤ key b)) :
    (insertByKey key x l).Pairwise (fun a b => key a ≤ key b) := by
  induction l with
  | nil => simp [insertByKey]
  | cons y ys ih =>
    rw [List.pairwise_cons] at h
    unfold insertByKey
    by_cases hlt : key y < key x
    · rw [if_pos hlt, List.pairwise_cons]
      refine ⟨?_, ih h.2⟩
      intro z hz
      rcases (mem_insertByKey key x z ys).mp hz with rfl | hz2
      · exact le_of_lt hlt
      · exact h.1 z hz2
    · rw [if_neg hlt, List.pairwise_cons]
      refine ⟨?_, List.pairwise_cons.mpr h⟩
      intro z hz
      rcases List.mem_cons.mp hz with rfl | hz2
      · exact le_of_not_lt hlt
      · exact le_trans (le_of_not_lt hlt) (h.1 z hz2)

theorem pairwise_sortByKey (key : α → Int) (l : List α) :
    (sortByKey key l).Pairwise (fun a b => key a ≤ key b) := by
  induction l with
  | nil => simp [sortByKey]
  | cons x xs ih => exact pairwise_insertByKey key x _ ih

/-- Claim C9 as amended: list_messages returns the oldest min(limit, total)
messages of the pool, ordered ascending by creation timestamp — a prefix
of the chronologically sorted message list; every returned message is no
newer than any message of the pool that was cut off by the limit (so when
more than limit messages exist, the most recent ones are the omitted ones,
not the returned ones). -/
theorem list_messages_oldest_prefix (db : DB) (pid : String) (limit : Nat) :
    (list_messages pid limit db).Pairwise (fun a b => a.created_at ≤ b.created_at) ∧
    (list_messages pid limit db).length ≤ limit ∧
    (∀ a ∈ list_messages pid limit db,
     ∀ b ∈ (sortByKey (fun m => m.created_at)
              (db.messages.filter (fun m => m.pool_id = pid))).drop limit,
      a.created_at ≤ b.created_at) := by
  have hsorted : (sortByKey (fun m : Message => m.created_at)
      (db.messages.filter (fun m => m.pool_id = pid))).Pairwise
      (fun a b => a.created_at ≤ b.created_at) :=
    pairwise_sortByKey (fun m : Message => m.created_at) _
  refine ⟨?_, ?_, ?_⟩
  · exact hsorted.sublist (List.take_sublist _ _)
  · unfold list_messages
    exact List.length_take_le _ _
  · have hsplit := List.pairwise_append.mp
      (by rw [List.take_append_drop
        limit (sortByKey (fun m : Message => m.created_at)
          (db.messages.filter (fun m => m.pool_id = pid)))]; exact hsorted)
    intro a ha b hb
    exact hsplit.2.2 a ha b hb

/-- Witness for list_messages_oldest_prefix on the concrete three-message
store with limit 2. -/
theorem list_messages_oldest_prefix_witness :
    (list_messages "p1" 2 dbMsgs).Pairwise (fun a b => a.created_at ≤ b.created_at) ∧
    (list_messages "p1" 2 dbMsgs).length ≤ 2 ∧
    msg1.created_at ≤ msg3.created_at := by
  have h := list_messages_oldest_prefix dbMsgs "p1" 2
  exact ⟨h.1, h.2.1, h.2.2 msg1 (by decide) msg3 (by decide)⟩

-- Claim C1 (amended) --------------------------------------------------------

theorem countP_filter_le (p q : α → Bool) (l : List α) :
    List.countP p (l.filter q) ≤ List.countP p l := by
  induction l with
  | nil => simp
  | cons x xs ih =>
    rw [List.filter_cons]
    by_cases hq : q x
    · rw [if_pos hq, List.countP_cons, List.countP_cons]
      omega
    · rw [if_neg hq, List.countP_cons]
      omega

theorem insert_or_ignore_fresh (m : Member) (l : List Member)
    (h : ∀ x ∈ l, ¬ x.pool_id = m.pool_id) :
    insert_or_ignore_member m l = l ++ [m] := by
  have hcond : l.any (fun x => x.pool_id = m.pool_id ∧ x.email = m.email) = false := by
    rw [List.any_eq_false]
    intro x hx
    simp only [decide_eq_true_eq, not_and]
    intro hpid
    exact absurd hpid (h x hx)
  unfold insert_or_ignore_member
  rw [hcond]
  simp

instance (a : PoolAction) (db : DB) : Decidable (a.ok db) := by
  cases a <;> unfold PoolAction.ok <;> infer_instance

/-- Claim C1 as amended: creation atomically registers the host as the
first member (member count exactly 1 right after add_pool, given a fresh
pool id), and every engine operation preserves the store invariant that
pool ids are unique and no pool's member count exceeds its seat capacity.
The original lower bound 1 <= member_count does not hold because
leave_pool can remove the host (see the counterexample); the invariant
that survives is member_count <= seat_capacity. -/
theorem member_bounds_invariant (a : PoolAction) (db : DB)
    (hinv : StoreInv db) (hok : a.ok db) :
    StoreInv (a.apply db) ∧
    (∀ p : Pool, a = PoolAction.create p → get_members_count p.id (a.apply db) = 1) := by
  obtain ⟨hnodup, hcount⟩ := hinv
  cases a with
  | create p =>
    obtain ⟨hseats, hfreshp, hfreshm⟩ := hok
    have hins : insert_or_ignore_member
        { pool_id := p.id, name := p.host_name, email := p.host_email } db.members
        = db.members ++ [{ pool_id := p.id, name := p.host_name, email := p.host_email }] :=
      insert_or_ignore_fresh _ _ (fun x hx => hfreshm x hx)
    have hcnt1 : get_members_count p.id (add_pool p db) = 1 := by
      unfold get_members_count add_pool
      dsimp only
      rw [hins, List.countP_append]
      have h0 : db.members.countP (fun m => m.pool_id = p.id) = 0 := by
        rw [List.countP_eq_zero]
        intro m hm
        simpa using hfreshm m hm
      rw [h0]
      simp
    have hc2 : ∀ q ∈ db.pools ++ [p],
        (get_members_count q.id (add_pool p db) : Int) ≤ q.seats := by
      intro q hq
      rcases List.mem_append.mp hq with hq | hq
      · have hcc : get_members_count q.id (add_pool p db) = get_members_count q.id db := by
          unfold get_members_count add_pool
          dsimp only
          rw [hins, List.countP_append]
          have hz : List.countP (fun (m : Member) => m.pool_id = q.id)
              [{ pool_id := p.id, name := p.host_name, email := p.host_email }] = 0 := by
            have hne : ¬ p.id = q.id := fun he => hfreshp q hq he.symm
            simp [hne]
          rw [hz]
          omega
        rw [hcc]
        exact hcount q hq
      · rw [List.mem_singleton] at hq
        subst hq
        rw [hcnt1]
        exact_mod_cast hseats
    refine ⟨⟨?_, ?_⟩, ?_⟩
    · show (((add_pool p db).pools).map (fun q => q.id)).Nodup
      unfold add_pool
      dsimp only
      rw [List.map_append, List.nodup_append]
      refine ⟨hnodup, by simp, ?_⟩
      intro x hx1 hx2
      rcases List.mem_map.mp hx1 with ⟨q, hq, rfl⟩
      simp only [List.map_cons, List.map_nil, List.mem_cons, List.not_mem_nil, or_false] at hx2
      exact hfreshp q hq hx2
    · intro q hq
      have hq2 : q ∈ db.pools ++ [p] := hq
      exact hc2 q hq2
    · intro p2 h2
      injection h2 with he
      subst he
      exact hcnt1
  | join pid n e now =>
    refine ⟨?_, fun p2 h2 => PoolAction.noConfusion h2⟩
    dsimp only [PoolAction.apply]
    unfold join_pool
    by_cases hm : is_user_member pid e db = true
    · rw [if_pos hm]
      exact ⟨hnodup, hcount⟩
    · rw [if_neg hm]
      cases hf : db.pools.find? (fun p => p.id = pid) with
      | none => exact ⟨hnodup, hcount⟩
      | some p =>
        dsimp only
        by_cases ht : p.when_iso < now
        · rw [if_pos ht]
          exact ⟨hnodup, hcount⟩
        · rw [if_neg ht]
          by_cases hcap : p.seats ≤ (get_members_count pid db : Int)
          · rw [if_pos hcap]
            exact ⟨hnodup, hcount⟩
          · rw [if_neg hcap]
            refine ⟨hnodup, ?_⟩
            intro q hq
            dsimp only at hq ⊢
            have hp_mem : p ∈ db.pools := List.mem_of_find?_eq_some hf
            have hp_id : p.id = pid := by simpa using List.find?_some hf
            unfold get_members_count
            dsimp only
            rw [List.countP_append]
            by_cases hqe : q.id = pid
            · have hqp : q = p :=
                List.inj_on_of_nodup_map hnodup hq hp_mem (by rw [hqe, hp_id])
              subst hqp
              rw [hqe]
              have hone : List.countP (fun (m : Member) => m.pool_id = pid)
                  [{ pool_id := pid, name := n, email := e }] = 1 := by simp
              rw [hone]
              have hlt : (get_members_count pid db : Int) < q.seats := lt_of_not_le hcap
              unfold get_members_count at hlt
              push_cast
              omega
            · have hne : ¬ pid = q.id := fun h2 => hqe h2.symm
              have hzero : List.countP (fun (m : Member) => m.pool_id = q.id)
                  [{ pool_id := pid, name := n, email := e }] = 0 := by simp [hne]
              rw [hzero, Nat.add_zero]
              exact hcount q hq
  | leave pid e =>
    refine ⟨⟨hnodup, ?_⟩, fun p2 h2 => PoolAction.noConfusion h2⟩
    intro q hq
    have hq2 : q ∈ db.pools := hq
    have hle : get_members_count q.id (leave_pool pid e db) ≤ get_members_count q.id db := by
      unfold get_members_count leave_pool
      dsimp only
      exact countP_filter_le _ _ _
    calc ((get_members_count q.id (leave_pool pid e db)) : Int)
        ≤ (get_members_count q.id db : Int) := by exact_mod_cast hle
      _ ≤ q.seats := hcount q hq2
  | delete pid r =>
    refine ⟨?_, fun p2 h2 => PoolAction.noConfusion h2⟩
    dsimp only [PoolAction.apply]
    unfold delete_pool
    cases hf : db.pools.find? (fun p => p.id = pid) with
    | none => exact ⟨hnodup, hcount⟩
    | some p =>
      dsimp only
      by_cases hh : p.host_email = r
      · rw [if_pos hh]
        refine ⟨?_, ?_⟩
        · dsimp only
          exact List.Nodup.sublist ((List.filter_sublist _).map _) hnodup
        · intro q hq
          dsimp only at hq ⊢
          have hq2 : q ∈ db.pools := List.mem_of_mem_filter hq
          have hle : List.countP (fun m => m.pool_id = q.id)
              (db.members.filter (fun m => ¬ m.pool_id = pid))
              ≤ List.countP (fun m => m.pool_id = q.id) db.members :=
            countP_filter_le _ _ _
          unfold get_members_count
          dsimp only
          calc ((List.countP (fun m => m.pool_id = q.id)
                  (db.members.filter (fun m => ¬ m.pool_id = pid))) : Int)
              ≤ (List.countP (fun m => m.pool_id = q.id) db.members : Int) := by
                exact_mod_cast hle
            _ ≤ q.seats := hcount q hq2
      · rw [if_neg hh]
        exact ⟨hnodup, hcount⟩
  | reap now =>
    refine ⟨?_, fun p2 h2 => PoolAction.noConfusion h2⟩
    dsimp only [PoolAction.apply]
    refine ⟨?_, ?_⟩
    · rw [cleanup_pools_eq]
      exact List.Nodup.sublist ((List.filter_sublist _).map _) hnodup
    · intro q hq
      rw [cleanup_pools_eq] at hq
      have hq2 : q ∈ db.pools := List.mem_of_mem_filter hq
      have hle : get_members_count q.id (cleanup_expired_pools now db)
          ≤ get_members_count q.id db := by
        unfold get_members_count
        rw [cleanup_members_eq]
        exact countP_filter_le _ _ _
      calc ((get_members_count q.id (cleanup_expired_pools now db)) : Int)
          ≤ (get_members_count q.id db : Int) := by exact_mod_cast hle
        _ ≤ q.seats := hcount q hq2

/-- Witness for member_bounds_invariant: creating pool1 on the empty store
keeps the invariant and registers exactly the host as member. -/
theorem member_bounds_invariant_witness :
    StoreInv ((PoolAction.create pool1).apply emptyDB) ∧
    get_members_count pool1.id ((PoolAction.create pool1).apply emptyDB) = 1 :=
  ⟨(member_bounds_invariant (PoolAction.create pool1) emptyDB (by decide) (by decide)).1,
   (member_bounds_invariant (PoolAction.create pool1) emptyDB (by decide) (by decide)).2
     pool1 rfl⟩
